import Mathlib

/-!
Verification of the battleship repository core: a shallow embedding of the
board/game model (package model: board file and game.go), the second historical
player model (model.go and types.go), and the in-memory match registry
(MemoryService), together with theorems settling the specification claims.

Go machine integers never approach overflow in this code (all values are small
coordinates, sizes and counters), so Go int is embedded as Int (or Nat where
the source value is a length). Go nil-pointer dereference is modelled
explicitly by the GoRes.crash constructor.
-/

/-- Coordinate represents a position on the Battleship grid (Go struct with
int fields X, Y). -/
structure Coordinate where
  x : Int
  y : Int
deriving DecidableEq, Repr

namespace Model

/-! Embedding of the board part of package model (file with Board, Ship,
ShotResult, Orientation) and of game.go (Game, Player, Attack, ...). -/

/-- ShotResult values (iota order: Invalid, Miss, Hit, Sunk). -/
inductive ShotResult where
  | Invalid
  | Miss
  | Hit
  | Sunk
deriving DecidableEq, Repr

/-- Orientation values (iota order: Horizontal, Vertical). -/
inductive Orientation where
  | Horizontal
  | Vertical
deriving DecidableEq, Repr

/-- Vector returns the row and column deltas for the orientation. -/
def Orientation.Vector : Orientation → Int × Int
  | .Horizontal => (1, 0)
  | .Vertical => (0, 1)

/-- Ship: the Go struct holds only a size; pointer identity distinguishes
instances, modelled by an explicit allocation identifier. -/
structure Ship where
  id : Nat
  size : Nat
deriving DecidableEq, Repr

/-- tile: hit flag plus optional ship reference. -/
structure tile where
  isHit : Bool
  ship : Option Ship
deriving DecidableEq, Repr

/-- GridSize defines the size of the Battleship grid. -/
def GridSize : Nat := 10

/-- Board: 10 by 10 tiles plus a 10 by 10 shot-history grid, embedded as
total functions on coordinates (only in-bounds cells are ever read or
written by the source operations). -/
structure Board where
  tiles : Coordinate → tile
  history : Coordinate → ShotResult

/-- NewBoard: zero-valued tiles and history (Go zero values: false, nil,
ShotResult 0 = Invalid). -/
def NewBoard : Board :=
  { tiles := fun _ => { isHit := false, ship := none }
  , history := fun _ => ShotResult.Invalid }

/-- All 100 grid coordinates in the iteration order of Board.Cells
(outer loop on y, inner on x). -/
def allCoords : List Coordinate :=
  (List.range GridSize).flatMap fun (y : Nat) =>
    (List.range GridSize).map fun (x : Nat) => { x := (x : Int), y := (y : Int) }

/-- isOutOfBounds mirrors the bound checks of the source. -/
def Board.isOutOfBounds (c : Coordinate) : Bool :=
  c.y < 0 || c.y ≥ 10 || c.x < 0 || c.x ≥ 10

/-- isOccupied: the tile at the coordinate holds a ship reference. -/
def Board.isOccupied (b : Board) (c : Coordinate) : Bool :=
  (b.tiles c).ship ≠ none

/-- isShipSunk: no cell referencing this ship instance is still unhit. -/
def Board.isShipSunk (b : Board) (s : Ship) : Bool :=
  allCoords.all fun c =>
    if (b.tiles c).ship = some s then (b.tiles c).isHit else true

/-- AllShipsSunk: every tile holding a ship reference has its hit flag set. -/
def Board.AllShipsSunk (b : Board) : Bool :=
  allCoords.all fun c =>
    if (b.tiles c).ship ≠ none then (b.tiles c).isHit else true

/-- calculateSegments expands the origin along the orientation vector. -/
def calculateSegments (start : Coordinate) (size : Nat) (o : Orientation) :
    List Coordinate :=
  (List.range size).map fun (i : Nat) =>
    { x := start.x + (i : Int) * o.Vector.1, y := start.y + (i : Int) * o.Vector.2 }

/-- The distinguishable error values of package model (board file and
game.go). -/
inductive GErr where
  | shipOutOfBounds
  | shipOverlap
  | invalidShipSize
  | notYourTurn
  | invalidShot
  | unknownPlayer
  | noShipsRemaining
  | notInPlay
  | notInSetup
  | notReadyToStart
  | gameFull
deriving DecidableEq, Repr

/-- canPlaceShip: out-of-bounds is checked before overlap; both checks run
before any mutation. -/
def Board.canPlaceShip (b : Board) (s : List Coordinate) : Option GErr :=
  if s.any Board.isOutOfBounds then some GErr.shipOutOfBounds
  else if s.any b.isOccupied then some GErr.shipOverlap
  else none

/-- placeShipAt writes the same ship reference into every segment tile. -/
def Board.placeShipAt (b : Board) (s : List Coordinate) (ship : Ship) : Board :=
  s.foldl
    (fun b2 c =>
      { b2 with tiles := fun c2 =>
          if c2 = c then { b2.tiles c2 with ship := some ship } else b2.tiles c2 })
    b

/-- PlaceShip validates fully, then mutates; on error the board is returned
untouched. -/
def Board.PlaceShip (b : Board) (c : Coordinate) (s : Ship) (o : Orientation) :
    Board × Option GErr :=
  let segments := calculateSegments c s.size o
  match b.canPlaceShip segments with
  | some e => (b, some e)
  | none => (b.placeShipAt segments s, none)

/-- ReceiveShot: invalid when out of bounds or already hit; otherwise marks
the tile hit, records the result in the history grid and reports it. The
sunk check runs on the board after the hit flag is set. -/
def Board.ReceiveShot (b : Board) (c : Coordinate) : Board × ShotResult :=
  if Board.isOutOfBounds c then (b, ShotResult.Invalid)
  else
    let t := b.tiles c
    if t.isHit then (b, ShotResult.Invalid)
    else
      let b1 : Board :=
        { b with tiles := fun c2 =>
            if c2 = c then { t with isHit := true } else b.tiles c2 }
      match t.ship with
      | none =>
          ({ b1 with history := fun c2 =>
              if c2 = c then ShotResult.Miss else b1.history c2 }, ShotResult.Miss)
      | some s =>
          if b1.isShipSunk s then
            ({ b1 with history := fun c2 =>
                if c2 = c then ShotResult.Sunk else b1.history c2 }, ShotResult.Sunk)
          else
            ({ b1 with history := fun c2 =>
                if c2 = c then ShotResult.Hit else b1.history c2 }, ShotResult.Hit)

/-- GameState values of game.go (iota order). -/
inductive GameState where
  | StateWaiting
  | StateSetup
  | StatePlaying
  | StateGameOver
deriving DecidableEq, Repr

/-- Player of game.go: identifier, remaining fleet (ship size to remaining
count, embedded as an association list mirroring the Go map), and a board. -/
structure Player where
  id : String
  fleet : List (Int × Int)
  board : Board

/-- Game of game.go: two optional players, turn pointer, phase and winner.
The shipCtr field models the Go allocator: each placement allocates a fresh
Ship pointer, embedded as a fresh identifier. -/
structure Game where
  player1 : Option Player
  player2 : Option Player
  turn : String
  state : GameState
  winner : String
  shipCtr : Nat

/-- GoRes models the outcome of running a Go method that may hit a runtime
nil-pointer dereference: crash is the Go panic. -/
inductive GoRes (α : Type) where
  | crash : GoRes α
  | ok (a : α) : GoRes α
deriving Repr

/-- The two player slots of a Game. -/
inductive Slot where
  | s1
  | s2
deriving DecidableEq, Repr

/-- Writes a player back into its slot (the Go code mutates the player in
place through the slot pointer). -/
def setSlot (g : Game) : Slot → Player → Game
  | Slot.s1, p => { g with player1 := some p }
  | Slot.s2, p => { g with player2 := some p }

/-- StandardFleet of game.go, in source order. -/
def StandardFleet : List (Int × Int) := [(5, 1), (4, 1), (3, 2), (2, 1)]

/-- startingFleet: the standard fleet when nil is given, else a clone of the
argument. -/
def startingFleet (fleet : Option (List (Int × Int))) : List (Int × Int) :=
  fleet.getD StandardFleet

/-- Go map read fleet[size]: value of the first matching key, if any. -/
def fleetGet : List (Int × Int) → Int → Option Int
  | [], _ => none
  | kv :: rest, s => if kv.1 = s then some kv.2 else fleetGet rest s

/-- Go map write fleet[size]--: decrement of the first matching entry. -/
def fleetDec : List (Int × Int) → Int → List (Int × Int)
  | [], _ => []
  | kv :: rest, s =>
      if kv.1 = s then (kv.1, kv.2 - 1) :: rest else kv :: fleetDec rest s

/-- NewGame: the zero-valued Game (nil players, empty strings, state 0). -/
def NewGame : Game :=
  { player1 := none, player2 := none, turn := "", state := GameState.StateWaiting
  , winner := "", shipCtr := 0 }

/-- NewFullGame: both players present, state Setup. -/
def NewFullGame (p1ID p2ID : String) (fleet : Option (List (Int × Int))) : Game :=
  { player1 := some { id := p1ID, fleet := startingFleet fleet, board := NewBoard }
  , player2 := some { id := p2ID, fleet := startingFleet fleet, board := NewBoard }
  , turn := "", state := GameState.StateSetup, winner := "", shipCtr := 0 }

/-- Join fills the first empty slot; filling the second slot moves the phase
to Setup; a third join fails with GameFull. No identity check is made. -/
def Game.Join (g : Game) (playerID : String) (fleet : Option (List (Int × Int))) :
    Game × Option GErr :=
  let newP : Player := { id := playerID, fleet := startingFleet fleet, board := NewBoard }
  match g.player1 with
  | none => ({ g with player1 := some newP }, none)
  | some _ =>
      match g.player2 with
      | none =>
          ({ g with player2 := some newP, state := GameState.StateSetup }, none)
      | some _ => (g, some GErr.gameFull)

/-- getPlayerByID together with the slot the player occupies. The Go switch
evaluates the id of player 1 first and the id of player 2 second, so a nil
slot pointer reached by that evaluation order is a crash. -/
def getPlayerSlot (g : Game) (playerID : String) : GoRes (Option (Slot × Player)) :=
  match g.player1 with
  | none => GoRes.crash
  | some p1 =>
      if playerID = p1.id then GoRes.ok (some (Slot.s1, p1))
      else
        match g.player2 with
        | none => GoRes.crash
        | some p2 =>
            if playerID = p2.id then GoRes.ok (some (Slot.s2, p2)) else GoRes.ok none

/-- getOpponent with its slot. When the caller occupies slot 1, the returned
slot-2 pointer may be nil without a crash (the switch never evaluates it);
the Attack code then checks it against nil. -/
def getOpponentSlot (g : Game) (playerID : String) : GoRes (Option (Slot × Player)) :=
  match g.player1 with
  | none => GoRes.crash
  | some p1 =>
      if playerID = p1.id then
        GoRes.ok (g.player2.map fun p2 => (Slot.s2, p2))
      else
        match g.player2 with
        | none => GoRes.crash
        | some p2 =>
            if playerID = p2.id then GoRes.ok (some (Slot.s1, p1)) else GoRes.ok none

/-- playerShipsPlaced: no fleet entry still positive. -/
def playerShipsPlaced (p : Player) : Bool :=
  p.fleet.all fun kv => !(kv.2 > 0)

/-- passTurn flips the turn pointer between the two player ids. Both case
expressions dereference the slot pointers, so a nil player 2 crashes in
either branch. -/
def Game.passTurn (g : Game) : GoRes Game :=
  match g.player1 with
  | none => GoRes.crash
  | some p1 =>
      match g.player2 with
      | none => GoRes.crash
      | some p2 =>
          if g.turn = p1.id then GoRes.ok { g with turn := p2.id }
          else if g.turn = p2.id then GoRes.ok { g with turn := p1.id }
          else GoRes.ok g

/-- Game.PlaceShip: phase check, player lookup, inventory check, board
placement, inventory decrement. A fresh ship identifier models the Go
pointer allocation. -/
def Game.PlaceShip (g : Game) (playerID : String) (c : Coordinate) (size : Nat)
    (o : Orientation) : GoRes (Game × Option GErr) :=
  if g.state ≠ GameState.StateSetup then GoRes.ok (g, some GErr.notInSetup)
  else
    match getPlayerSlot g playerID with
    | GoRes.crash => GoRes.crash
    | GoRes.ok none => GoRes.ok (g, some GErr.unknownPlayer)
    | GoRes.ok (some (sl, p)) =>
        match fleetGet p.fleet (size : Int) with
        | none => GoRes.ok (g, some GErr.noShipsRemaining)
        | some n =>
            if n ≤ 0 then GoRes.ok (g, some GErr.noShipsRemaining)
            else
              let newShip : Ship := { id := g.shipCtr, size := size }
              match p.board.PlaceShip c newShip o with
              | (_, some e) => GoRes.ok (g, some e)
              | (b2, none) =>
                  let p2 : Player :=
                    { p with board := b2, fleet := fleetDec p.fleet (size : Int) }
                  let g2 := setSlot g sl p2
                  GoRes.ok ({ g2 with shipCtr := g.shipCtr + 1 }, none)

/-- StartGame: only legal in Setup; requires both fleets exhausted; on
success the phase becomes Playing and the turn pointer is set to the
slot-1 player. The two readiness checks short-circuit left to right. -/
def Game.StartGame (g : Game) : GoRes (Game × Option GErr) :=
  if g.state ≠ GameState.StateSetup then GoRes.ok (g, some GErr.notInSetup)
  else
    match g.player1 with
    | none => GoRes.crash
    | some p1 =>
        if !playerShipsPlaced p1 then GoRes.ok (g, some GErr.notReadyToStart)
        else
          match g.player2 with
          | none => GoRes.crash
          | some p2 =>
              if !playerShipsPlaced p2 then GoRes.ok (g, some GErr.notReadyToStart)
              else
                GoRes.ok
                  ({ g with state := GameState.StatePlaying, turn := p1.id }, none)

/-- Attack: phase, identity and turn checks, then shot delegation to the
defender board, then result handling exactly as in game.go. -/
def Game.Attack (g : Game) (attackerID : String) (c : Coordinate) :
    GoRes (Game × ShotResult × Option GErr) :=
  if g.state ≠ GameState.StatePlaying then
    GoRes.ok (g, ShotResult.Invalid, some GErr.notInPlay)
  else
    match getPlayerSlot g attackerID with
    | GoRes.crash => GoRes.crash
    | GoRes.ok none => GoRes.ok (g, ShotResult.Invalid, some GErr.unknownPlayer)
    | GoRes.ok (some _) =>
        if g.turn ≠ attackerID then
          GoRes.ok (g, ShotResult.Invalid, some GErr.notYourTurn)
        else
          match getOpponentSlot g attackerID with
          | GoRes.crash => GoRes.crash
          | GoRes.ok none => GoRes.ok (g, ShotResult.Invalid, some GErr.notYourTurn)
          | GoRes.ok (some (sl, d)) =>
              let rs := d.board.ReceiveShot c
              let g1 := setSlot g sl { d with board := rs.1 }
              match rs.2 with
              | ShotResult.Invalid =>
                  GoRes.ok (g1, ShotResult.Invalid, some GErr.invalidShot)
              | ShotResult.Sunk =>
                  if rs.1.AllShipsSunk then
                    let g2 :=
                      { g1 with state := GameState.StateGameOver, winner := attackerID }
                    GoRes.ok (g2, ShotResult.Sunk, none)
                  else
                    match g1.passTurn with
                    | GoRes.crash => GoRes.crash
                    | GoRes.ok g2 => GoRes.ok (g2, ShotResult.Sunk, none)
              | ShotResult.Hit =>
                  match g1.passTurn with
                  | GoRes.crash => GoRes.crash
                  | GoRes.ok g2 => GoRes.ok (g2, ShotResult.Hit, none)
              | ShotResult.Miss =>
                  match g1.passTurn with
                  | GoRes.crash => GoRes.crash
                  | GoRes.ok g2 => GoRes.ok (g2, ShotResult.Miss, none)

/-- IsGameOver of game.go. -/
def Game.IsGameOver (g : Game) : Bool :=
  g.state = GameState.StateGameOver

/-- Projection of an Attack outcome to the observable referee data:
phase, turn pointer, winner, shot result and error. -/
def attackOut (r : GoRes (Game × ShotResult × Option GErr)) :
    Option (GameState × String × String × ShotResult × Option GErr)  :=
  match r with
  | GoRes.crash => none
  | GoRes.ok a => some (a.1.state, a.1.turn, a.1.winner, a.2.1, a.2.2)

/-- The forward order of the phases. -/
def phaseRank : GameState → Nat
  | GameState.StateWaiting => 0
  | GameState.StateSetup => 1
  | GameState.StatePlaying => 2
  | GameState.StateGameOver => 3

/-- The structural invariant every reachable Game satisfies: an empty slot 2
forces the Waiting phase, and slot 1 fills before slot 2. -/
def GameInv (g : Game) : Prop :=
  (g.player2 = none → g.state = GameState.StateWaiting) ∧
  (g.player1 = none → g.player2 = none)

/-- One public mutating operation of the Game API. -/
inductive Op where
  | join (pid : String) (fleet : Option (List (Int × Int)))
  | place (pid : String) (c : Coordinate) (size : Nat) (o : Orientation)
  | start
  | attack (pid : String) (c : Coordinate)

/-- Runs one operation, keeping the resulting game. -/
def Game.step (g : Game) : Op → GoRes Game
  | Op.join pid f => GoRes.ok (g.Join pid f).1
  | Op.place pid c sz o =>
      match g.PlaceShip pid c sz o with
      | GoRes.crash => GoRes.crash
      | GoRes.ok r => GoRes.ok r.1
  | Op.start =>
      match g.StartGame with
      | GoRes.crash => GoRes.crash
      | GoRes.ok r => GoRes.ok r.1
  | Op.attack pid c =>
      match g.Attack pid c with
      | GoRes.crash => GoRes.crash
      | GoRes.ok r => GoRes.ok r.1

/-- Runs a whole sequence of operations. -/
def Game.run (g : Game) : List Op → GoRes Game
  | [] => GoRes.ok g
  | op :: ops =>
      match g.step op with
      | GoRes.crash => GoRes.crash
      | GoRes.ok g2 => g2.run ops

/-- CellState of the dto package. -/
inductive CellState where
  | CellEmpty
  | CellShip
  | CellHit
  | CellMiss
  | CellSunk
  | CellUnknown
deriving DecidableEq, Repr

/-- BoardView of the dto package: a grid of cell states plus its size. -/
structure BoardView where
  Grid : List (List CellState)
  Size : Nat
deriving DecidableEq, Repr

/-- PlayerView of the dto package. -/
structure PlayerView where
  ID : String
  Board : BoardView
  Fleet : List (Int × Int)
deriving DecidableEq, Repr

/-- GameView of the dto package; State is the dto string value. -/
structure GameView where
  State : String
  Turn : String
  Winner : String
  Me : PlayerView
  Enemy : PlayerView
deriving DecidableEq, Repr

/-- toDTOState of game.go (Waiting falls to the default empty string). -/
def toDTOState : GameState → String
  | GameState.StateSetup => "SETUP"
  | GameState.StatePlaying => "PLAYING"
  | GameState.StateGameOver => "FINISHED"
  | GameState.StateWaiting => ""

/-- Modelled from the spec: the rendering of one board cell. The method
Board.GetSnapshot is called by Player.GetView in game.go but its definition
is absent from the sources; it is modelled from spec section 4.2: the own
board is rendered in full (ship positions visible), the opponent board is
rendered with ship cells disguised as fog-of-war except where already shot;
hit, sunk and miss cells remain visible from the shot history, and unshot
ship cells render identically to unshot water. -/
def renderCell (b : Board) (hideShips : Bool) (c : Coordinate) : CellState :=
  let t := b.tiles c
  if t.isHit then
    match b.history c with
    | ShotResult.Miss => CellState.CellMiss
    | ShotResult.Hit => CellState.CellHit
    | ShotResult.Sunk => CellState.CellSunk
    | ShotResult.Invalid => CellState.CellUnknown
  else if hideShips then CellState.CellUnknown
  else
    match t.ship with
    | some _ => CellState.CellShip
    | none => CellState.CellEmpty

/-- Modelled from the spec: Board.GetSnapshot (absent from the sources)
renders the whole grid row by row with renderCell. -/
def Board.GetSnapshot (b : Board) (hideShips : Bool) : BoardView :=
  { Grid :=
      (List.range GridSize).map fun (y : Nat) =>
        (List.range GridSize).map fun (x : Nat) =>
          renderCell b hideShips { x := (x : Int), y := (y : Int) }
  , Size := GridSize }

/-- Player.GetView of game.go. -/
def Player.GetView (p : Player) (hideShips : Bool) : PlayerView :=
  { ID := p.id, Board := p.board.GetSnapshot hideShips, Fleet := p.fleet }

/-- Game.GetView of game.go. The switch evaluates the id of player 1 first;
with a nil player 2 every branch that is reached dereferences it (either as
the second case expression or as the enemy of the observer), so a
one-player game crashes for every observer. -/
def Game.GetView (g : Game) (observerID : String) : GoRes (Except GErr GameView) :=
  match g.player1 with
  | none => GoRes.crash
  | some p1 =>
      if observerID = p1.id then
        match g.player2 with
        | none => GoRes.crash
        | some p2 =>
            let v : GameView :=
              { State := toDTOState g.state, Turn := g.turn, Winner := g.winner
              , Me := p1.GetView false, Enemy := p2.GetView true }
            GoRes.ok (Except.ok v)
      else
        match g.player2 with
        | none => GoRes.crash
        | some p2 =>
            if observerID = p2.id then
              let v : GameView :=
                { State := toDTOState g.state, Turn := g.turn, Winner := g.winner
                , Me := p2.GetView false, Enemy := p1.GetView true }
              GoRes.ok (Except.ok v)
            else GoRes.ok (Except.error GErr.unknownPlayer)

end Model

namespace PModel

/-! Embedding of the second (historical) player model of package model:
files model.go and types.go. -/

/-- ShipType values of types.go. -/
inductive ShipType where
  | Carrier
  | Battleship
  | Cruiser
  | Submarine
  | Destroyer
deriving DecidableEq, Repr

/-- Size of types.go. -/
def ShipType.Size : ShipType → Int
  | .Carrier => 5
  | .Battleship => 4
  | .Cruiser => 3
  | .Submarine => 3
  | .Destroyer => 2

/-- ShotResult values of types.go (Invalid is -1; Miss, Hit, Sunk follow). -/
inductive ShotResult where
  | ResultInvalid
  | ResultMiss
  | ResultHit
  | ResultSunk
deriving DecidableEq, Repr

/-- Errors of errors.go used by the attack path. -/
inductive PErr where
  | outOfBounds
  | repeatedHit
deriving DecidableEq, Repr

/-- ship of model.go: type, damage count and sunk flag; pointer identity is
modelled by an identifier into the ships store of the player. -/
structure ship where
  shipType : ShipType
  Hits : Int
  IsSunk : Bool
deriving DecidableEq, Repr

/-- cell of model.go: hit flag and optional ship reference. -/
structure cell where
  isHit : Bool
  shipRef : Option Nat
deriving DecidableEq, Repr

/-- gridSize of model.go. -/
def gridSize : Int := 10

/-- Player of model.go; the grid is embedded as a total function on
coordinates, the ship store maps the reference identifiers of the cells to
ship records. -/
structure Player where
  id : String
  board : Coordinate → cell
  ships : Nat → ship
  tracking : Coordinate → ShotResult
  shipsAfloat : Int
  isReady : Bool

/-- inBounds of model.go. -/
def inBounds (c : Coordinate) : Bool :=
  c.x ≥ 0 && c.x < gridSize && c.y ≥ 0 && c.y < gridSize

/-- cellAt of model.go: nil outside the grid. -/
def Player.cellAt (p : Player) (c : Coordinate) : Option cell :=
  if inBounds c then some (p.board c) else none

/-- processShipDamage of model.go: increments the damage count; a count
reaching the ship size sinks the ship and decrements shipsAfloat. -/
def Player.processShipDamage (p : Player) (sid : Nat) : Player × ShotResult × Option PErr :=
  let s := p.ships sid
  let s1 : ship := { s with Hits := s.Hits + 1 }
  if s1.Hits < s.shipType.Size then
    ({ p with ships := fun i => if i = sid then s1 else p.ships i },
      ShotResult.ResultHit, none)
  else
    let s2 : ship := { s1 with IsSunk := true }
    let p2 : Player := { p with ships := fun i => if i = sid then s2 else p.ships i }
    let p3 : Player := { p2 with shipsAfloat := p2.shipsAfloat - 1 }
    (p3, ShotResult.ResultSunk, none)

/-- ReceiveAttack of model.go: out of bounds reports Miss with an error; a
repeated shot on an already-missed water cell reports Miss with no error
(explicitly allowed in the source); a repeated shot on a hit ship cell
reports Invalid with ErrRepeatedHit; otherwise the cell is marked hit and
the result is Miss for water or the outcome of processShipDamage. -/
def Player.ReceiveAttack (p : Player) (c : Coordinate) : Player × ShotResult × Option PErr :=
  match p.cellAt c with
  | none => (p, ShotResult.ResultMiss, some PErr.outOfBounds)
  | some target =>
      if target.isHit && target.shipRef.isNone then
        (p, ShotResult.ResultMiss, none)
      else if target.isHit && target.shipRef.isSome then
        (p, ShotResult.ResultInvalid, some PErr.repeatedHit)
      else
        let t1 : cell := { target with isHit := true }
        let p1 : Player :=
          { p with board := fun c2 => if c2 = c then t1 else p.board c2 }
        match target.shipRef with
        | none => (p1, ShotResult.ResultMiss, none)
        | some sid => p1.processShipDamage sid

end PModel

namespace Service

/-! Embedding of the in-memory match registry (MemoryService). The Go map
from match ids to safeGame records is embedded as an association list; map
iteration order is irrelevant to the settled claims. -/

/-- safeGame of the service package (the per-match lock and timestamps are
collapsed to the data the settled claims read; time is an integer clock). -/
structure safeGame where
  id : String
  game : Model.Game
  host : String
  guest : String
  createdAt : Int

/-- MatchSummary of the dto package. -/
structure MatchSummary where
  ID : String
  HostName : String
  PlayerCount : Int
  CreatedAt : Int
deriving DecidableEq, Repr

/-- The zero value a Go make-with-length call fills MatchSummary slots with. -/
def zeroSummary : MatchSummary :=
  { ID := "", HostName := "", PlayerCount := 0, CreatedAt := 0 }

/-- playerCountUnsafe: counts the non-empty host and guest id fields. -/
def playerCountUnsafe (sg : safeGame) : Int :=
  (if sg.host ≠ "" then 1 else 0) + (if sg.guest ≠ "" then 1 else 0)

/-- ListMatches as written in the source: the slice is created with make
and a LENGTH of len(games) (not a capacity), so the loop appends the real
summaries after that many zero-valued entries. -/
def ListMatches (games : List (String × safeGame)) : List MatchSummary :=
  List.replicate games.length zeroSummary ++
    games.map fun g =>
      { ID := g.1, HostName := g.2.host, PlayerCount := playerCountUnsafe g.2
      , CreatedAt := g.2.createdAt }

/-- getSafeGame: lookup by match id. -/
def getSafeGame (games : List (String × safeGame)) (matchID : String) :
    Option safeGame :=
  (games.find? fun g => g.1 = matchID).map fun g => g.2

/-- Service errors for the gameplay facade. -/
inductive SErr where
  | notFound
  | gameErr (e : Model.GErr)
deriving DecidableEq, Repr

/-- GetState of gameplay.go: registry lookup, then Game.GetView on the
stored game; a crash of GetView is a crash of GetState. -/
def GetState (games : List (String × safeGame)) (matchID playerID : String) :
    Model.GoRes (Except SErr Model.GameView) :=
  match getSafeGame games matchID with
  | none => Model.GoRes.ok (Except.error SErr.notFound)
  | some sg =>
      match sg.game.GetView playerID with
      | Model.GoRes.crash => Model.GoRes.crash
      | Model.GoRes.ok (Except.ok v) => Model.GoRes.ok (Except.ok v)
      | Model.GoRes.ok (Except.error e) => Model.GoRes.ok (Except.error (SErr.gameErr e))

end Service

/-! ## Concrete instances used by witnesses and counterexamples -/

namespace Model

/-- A board holding a single one-cell ship at the origin, not yet shot. -/
def oneShipBoard : Board :=
  { tiles := fun c =>
      if c = { x := 0, y := 0 } then { isHit := false, ship := some { id := 0, size := 1 } }
      else { isHit := false, ship := none }
  , history := fun _ => ShotResult.Invalid }

/-- A playing-phase game: attacker a on turn, defender b owning
oneShipBoard; both fleets exhausted. -/
def exGame : Game :=
  { player1 := some { id := "a", fleet := [(1, 0)], board := NewBoard }
  , player2 := some { id := "b", fleet := [(1, 0)], board := oneShipBoard }
  , turn := "a", state := GameState.StatePlaying, winner := "", shipCtr := 1 }

/-- A setup-phase game with both fleets exhausted. -/
def exSetupGame : Game :=
  { player1 := some { id := "a", fleet := [(1, 0)], board := NewBoard }
  , player2 := some { id := "b", fleet := [(1, 0)], board := oneShipBoard }
  , turn := "", state := GameState.StateSetup, winner := "", shipCtr := 1 }

end Model

namespace PModel

/-- A player with an all-water board and no ships. -/
def exPlayer : Player :=
  { id := "p"
  , board := fun _ => { isHit := false, shipRef := none }
  , ships := fun _ => { shipType := ShipType.Destroyer, Hits := 0, IsSunk := false }
  , tracking := fun _ => ShotResult.ResultInvalid
  , shipsAfloat := 0
  , isReady := false }

/-- A player with a one-cell destroyer stump at the origin whose cell was
already hit. -/
def exHitShipPlayer : Player :=
  { id := "q"
  , board := fun c =>
      if c = { x := 0, y := 0 } then { isHit := true, shipRef := some 0 }
      else { isHit := false, shipRef := none }
  , ships := fun _ => { shipType := ShipType.Destroyer, Hits := 1, IsSunk := false }
  , tracking := fun _ => ShotResult.ResultInvalid
  , shipsAfloat := 1
  , isReady := false }

end PModel


/-! ## Theorems settling the claims -/

section Claims

open Model

/-- Helper: Game.GetView crashes on every observer whenever slot 1 is filled
and slot 2 is nil (both switch paths dereference the nil pointer). -/
lemma getView_crash_of_p2_nil (g : Game) (p : Player) (obs : String)
    (h1 : g.player1 = some p) (h2 : g.player2 = none) :
    g.GetView obs = GoRes.crash := by
  unfold Game.GetView
  rw [h1, h2]
  by_cases h : obs = p.id <;> simp [h]

/-- Claim C10: Game.Join performs no identifier-uniqueness check: when slot 1
holds a player with identifier p and slot 2 is empty, a Join with the same
identifier p succeeds (no error), fills slot 2 with a fresh player carrying
identifier p, and moves the phase to Setup. -/
theorem join_accepts_duplicate_id (pl : Player) (t w : String) (st : GameState)
    (ctr : Nat) (fleet : Option (List (Int × Int))) :
    Game.Join
      { player1 := some pl, player2 := none, turn := t, state := st
      , winner := w, shipCtr := ctr } pl.id fleet =
      ({ player1 := some pl
        , player2 := some { id := pl.id, fleet := startingFleet fleet, board := NewBoard }
        , turn := t, state := GameState.StateSetup, winner := w, shipCtr := ctr },
        none) := rfl

/-- Claim C8: the ListMatches bug. The slice is created with make and a
length (not a capacity) of len(games), so for a registry holding one match
the returned list has two entries: a zero-valued dummy summary followed by
the real one, contradicting one-summary-per-match. -/
theorem listMatches_emits_dummy_entries :
    Service.ListMatches
        [("game-1",
          { id := "game-1", game := NewGame, host := "alice", guest := ""
          , createdAt := 7 })] =
      [Service.zeroSummary,
        { ID := "game-1", HostName := "alice", PlayerCount := 1, CreatedAt := 7 }] ∧
    Service.zeroSummary =
      { ID := "", HostName := "", PlayerCount := 0, CreatedAt := 0 } := by
  exact ⟨rfl, rfl⟩

/-- Claim C9: with only one player joined (slot 2 nil), Game.GetView
dereferences the nil second player and panics for every observer, and the
service GetState on such a match panics likewise instead of returning an
error or a view; GetView is panic-free once both slots are filled. -/
theorem getView_panics_on_single_player :
    (∀ (p : Player) (t w : String) (st : GameState) (ctr : Nat) (obs : String),
        Game.GetView
          { player1 := some p, player2 := none, turn := t, state := st
          , winner := w, shipCtr := ctr } obs = GoRes.crash) ∧
    (∀ (games : List (String × Service.safeGame)) (mid pid : String)
        (sg : Service.safeGame) (p : Player),
        Service.getSafeGame games mid = some sg →
        sg.game.player1 = some p →
        sg.game.player2 = none →
        Service.GetState games mid pid = GoRes.crash) ∧
    (∀ (p1 p2 : Player) (t w : String) (st : GameState) (ctr : Nat) (obs : String),
        Game.GetView
          { player1 := some p1, player2 := some p2, turn := t, state := st
          , winner := w, shipCtr := ctr } obs ≠ GoRes.crash) := by
  refine ⟨?_, ?_, ?_⟩
  · intro p t w st ctr obs
    exact getView_crash_of_p2_nil _ p obs rfl rfl
  · intro games mid pid sg p hfind h1 h2
    unfold Service.GetState
    rw [hfind]
    dsimp only
    rw [getView_crash_of_p2_nil sg.game p pid h1 h2]
  · intro p1 p2 t w st ctr obs
    unfold Game.GetView
    by_cases h : obs = p1.id
    · simp [h]
    · by_cases h2 : obs = p2.id
      · simp only [h, if_neg h]
        split <;> simp
      · simp [h, h2]

/-- Witness for C9 at a concrete one-player match in the registry. -/
theorem getView_panics_on_single_player_witness :
    Service.GetState
        [("m",
          { id := "m"
          , game :=
              { player1 := some { id := "h", fleet := StandardFleet, board := NewBoard }
              , player2 := none, turn := "", state := GameState.StateWaiting
              , winner := "", shipCtr := 0 }
          , host := "h", guest := "", createdAt := 0 })] "m" "h" = GoRes.crash :=
  getView_panics_on_single_player.2.1 _ "m" "h" _
    { id := "h", fleet := StandardFleet, board := NewBoard } rfl rfl rfl

/-- Claim C3: whenever a computed placement cell is out of bounds, PlaceShip
fails with the out-of-bounds error; whenever all cells are in bounds but one
is already occupied, it fails with the overlap error; in both cases the
returned board is the input board, untouched (validation precedes any
mutation). -/
theorem placeShip_failure_leaves_board_unchanged (b : Board) (c : Coordinate)
    (s : Ship) (o : Orientation) :
    ((∃ cc ∈ calculateSegments c s.size o, Board.isOutOfBounds cc = true) →
      b.PlaceShip c s o = (b, some GErr.shipOutOfBounds)) ∧
    ((∀ cc ∈ calculateSegments c s.size o, Board.isOutOfBounds cc = false) →
      (∃ cc ∈ calculateSegments c s.size o, b.isOccupied cc = true) →
      b.PlaceShip c s o = (b, some GErr.shipOverlap)) := by
  constructor
  · intro hoob
    have hany : (calculateSegments c s.size o).any Board.isOutOfBounds = true := by
      rw [List.any_eq_true]
      obtain ⟨cc, hmem, hcc⟩ := hoob
      exact ⟨cc, hmem, hcc⟩
    simp [Board.PlaceShip, Board.canPlaceShip, hany]
  · intro hin hocc
    have hany : (calculateSegments c s.size o).any Board.isOutOfBounds = false := by
      rw [List.any_eq_false]
      intro cc hmem
      simp [hin cc hmem]
    have hany2 : (calculateSegments c s.size o).any b.isOccupied = true := by
      rw [List.any_eq_true]
      obtain ⟨cc, hmem, hcc⟩ := hocc
      exact ⟨cc, hmem, hcc⟩
    simp [Board.PlaceShip, Board.canPlaceShip, hany, hany2]

/-- Witness for C3: a horizontal size-2 ship at x = 9 runs off the board and
the board is returned unchanged. -/
theorem placeShip_failure_witness :
    NewBoard.PlaceShip { x := 9, y := 0 } { id := 0, size := 2 }
        Orientation.Horizontal = (NewBoard, some GErr.shipOutOfBounds) :=
  (placeShip_failure_leaves_board_unchanged NewBoard { x := 9, y := 0 }
      { id := 0, size := 2 } Orientation.Horizontal).1
    ⟨{ x := 10, y := 0 }, by decide, by decide⟩

/-- Claim C5: StartGame succeeds only in Setup and only when every fleet
entry of both players is exhausted; on success the phase becomes Playing and
the turn pointer is the slot-1 (host) player id; any partial completion
fails with NotReadyToStart and the game is returned unchanged; outside Setup
it fails with NotInSetup, unchanged. The last conjunct ties the readiness
predicate to the all-zero inventory reading. -/
theorem startGame_requires_full_fleets (g : Game) (p1 p2 : Player)
    (h1 : g.player1 = some p1) (h2 : g.player2 = some p2) :
    (g.state ≠ GameState.StateSetup →
      g.StartGame = GoRes.ok (g, some GErr.notInSetup)) ∧
    (g.state = GameState.StateSetup → playerShipsPlaced p1 = true →
      playerShipsPlaced p2 = true →
      g.StartGame =
        GoRes.ok ({ g with state := GameState.StatePlaying, turn := p1.id }, none)) ∧
    (g.state = GameState.StateSetup →
      (playerShipsPlaced p1 = false ∨ playerShipsPlaced p2 = false) →
      g.StartGame = GoRes.ok (g, some GErr.notReadyToStart)) ∧
    (∀ p : Player, playerShipsPlaced p = true ↔ ∀ kv ∈ p.fleet, kv.2 ≤ 0) := by
  refine ⟨?_, ?_, ?_, ?_⟩
  · intro hst
    simp [Game.StartGame, hst]
  · intro hst hp1 hp2
    simp [Game.StartGame, hst, h1, h2, hp1, hp2]
  · intro hst hp
    rcases hp with hp | hp
    · simp [Game.StartGame, hst, h1, hp]
    · by_cases hq1 : playerShipsPlaced p1
      · simp [Game.StartGame, hst, h1, h2, hq1, hp]
      · simp [Game.StartGame, hst, h1, hq1]
  · intro p
    simp [playerShipsPlaced, List.all_eq_true]

/-- Witness for C5 at the concrete exhausted setup game: the game starts and
the host moves first. -/
theorem startGame_requires_full_fleets_witness :
    exSetupGame.StartGame =
      GoRes.ok
        ({ exSetupGame with state := GameState.StatePlaying, turn := "a" }, none) :=
  (startGame_requires_full_fleets exSetupGame
      { id := "a", fleet := [(1, 0)], board := NewBoard }
      { id := "b", fleet := [(1, 0)], board := oneShipBoard } rfl rfl).2.1
    rfl rfl rfl

/-- Helper: a first shot at an in-bounds, not-yet-hit coordinate yields a
real result and marks the tile hit. -/
lemma receiveShot_first (b : Board) (c : Coordinate)
    (hin : Board.isOutOfBounds c = false) (hh : (b.tiles c).isHit = false) :
    (b.ReceiveShot c).2 ≠ ShotResult.Invalid ∧
    ((b.ReceiveShot c).1.tiles c).isHit = true := by
  cases hs : (b.tiles c).ship with
  | none => simp [Board.ReceiveShot, hin, hh, hs]
  | some sh =>
      simp [Board.ReceiveShot, hin, hh, hs]
      split <;> simp

/-- Helper: any shot at an already-hit coordinate is Invalid and leaves the
board untouched. -/
lemma receiveShot_repeat (b : Board) (c : Coordinate)
    (hh : (b.tiles c).isHit = true) :
    b.ReceiveShot c = (b, ShotResult.Invalid) := by
  unfold Board.ReceiveShot
  split
  · rfl
  · simp [hh]

/-- Claim C2 (amended): the repeat-shot rule does NOT hold uniformly in both
shot-resolution paths. In Board.ReceiveShot a first shot at an in-bounds
fresh coordinate yields a real result, marks the cell, and every subsequent
shot there is Invalid with the board unchanged. In Player.ReceiveAttack a
first shot behaves likewise, but a repeated shot is Invalid (ErrRepeatedHit)
only on a previously hit SHIP cell, while a repeated shot on a previously
missed water cell is answered Miss with no error. -/
theorem repeat_shot_rule_per_path :
    (∀ (b : Board) (c : Coordinate),
        Board.isOutOfBounds c = false → (b.tiles c).isHit = false →
        (b.ReceiveShot c).2 ≠ ShotResult.Invalid ∧
        ((b.ReceiveShot c).1.tiles c).isHit = true) ∧
    (∀ (b : Board) (c : Coordinate), (b.tiles c).isHit = true →
        b.ReceiveShot c = (b, ShotResult.Invalid)) ∧
    (∀ (p : PModel.Player) (c : Coordinate),
        PModel.inBounds c = true → (p.board c).isHit = false →
        (p.ReceiveAttack c).2.1 ≠ PModel.ShotResult.ResultInvalid ∧
        (p.ReceiveAttack c).2.2 = none ∧
        ((p.ReceiveAttack c).1.board c).isHit = true) ∧
    (∀ (p : PModel.Player) (c : Coordinate),
        PModel.inBounds c = true → (p.board c).isHit = true →
        (p.board c).shipRef = none →
        p.ReceiveAttack c = (p, PModel.ShotResult.ResultMiss, none)) ∧
    (∀ (p : PModel.Player) (c : Coordinate) (sid : Nat),
        PModel.inBounds c = true → (p.board c).isHit = true →
        (p.board c).shipRef = some sid →
        p.ReceiveAttack c = (p, PModel.ShotResult.ResultInvalid, some PModel.PErr.repeatedHit)) := by
  refine ⟨receiveShot_first, receiveShot_repeat, ?_, ?_, ?_⟩
  · intro p c hin hh
    cases hs : (p.board c).shipRef with
    | none =>
        simp [PModel.Player.ReceiveAttack, PModel.Player.cellAt, hin, hh, hs]
    | some sid =>
        simp [PModel.Player.ReceiveAttack, PModel.Player.cellAt, hin, hh, hs,
          PModel.Player.processShipDamage]
        split <;> simp
  · intro p c hin hh hs
    simp [PModel.Player.ReceiveAttack, PModel.Player.cellAt, hin, hh, hs]
  · intro p c sid hin hh hs
    simp [PModel.Player.ReceiveAttack, PModel.Player.cellAt, hin, hh, hs]

/-- Witness for the amended C2 at concrete inputs: a repeated shot on the
hit ship cell of exHitShipPlayer is Invalid with ErrRepeatedHit. -/
theorem repeat_shot_rule_per_path_witness :
    PModel.Player.ReceiveAttack PModel.exHitShipPlayer { x := 0, y := 0 } =
      (PModel.exHitShipPlayer, PModel.ShotResult.ResultInvalid,
        some PModel.PErr.repeatedHit) :=
  repeat_shot_rule_per_path.2.2.2.2 PModel.exHitShipPlayer { x := 0, y := 0 } 0
    rfl rfl rfl

/-- Counterexample to C2 as stated: on the fresh all-water player, the first
shot at the origin is a Miss, yet the second shot at the very same
coordinate is again a Miss with no error, not Invalid, in the
Player.ReceiveAttack path. -/
theorem repeat_shot_uniformity_cex :
    (PModel.exPlayer.ReceiveAttack { x := 0, y := 0 }).2 =
      (PModel.ShotResult.ResultMiss, none) ∧
    ((PModel.exPlayer.ReceiveAttack { x := 0, y := 0 }).1.ReceiveAttack
        { x := 0, y := 0 }).2 =
      (PModel.ShotResult.ResultMiss, none) ∧
    PModel.ShotResult.ResultMiss ≠ PModel.ShotResult.ResultInvalid := by
  refine ⟨rfl, rfl, by decide⟩

/-- Helper: pointwise description of placeShipAt — tiles on the segment get
the ship reference (hit flag untouched), all other tiles are unchanged. -/
lemma placeShipAt_tiles (sh : Ship) :
    ∀ (segs : List Coordinate) (b : Board) (cc : Coordinate),
      (b.placeShipAt segs sh).tiles cc =
        if cc ∈ segs then { b.tiles cc with ship := some sh } else b.tiles cc := by
  intro segs
  induction segs with
  | nil => intro b cc; simp [Board.placeShipAt]
  | cons c0 rest ih =>
      intro b cc
      have hstep :
          b.placeShipAt (c0 :: rest) sh =
            Board.placeShipAt
              { b with tiles := fun c2 =>
                  if c2 = c0 then { b.tiles c2 with ship := some sh } else b.tiles c2 }
              rest sh := rfl
      rw [hstep, ih]
      by_cases h0 : cc = c0
      · by_cases h1 : cc ∈ rest <;> simp [h0, h1]
      · by_cases h1 : cc ∈ rest <;> simp [h0, h1]

/-- Helper: the computed segment cells are pairwise distinct. -/
lemma calculateSegments_nodup (c : Coordinate) (n : Nat) (o : Orientation) :
    (calculateSegments c n o).Nodup := by
  have hinj : Function.Injective (fun i : Nat =>
      ({ x := c.x + (i : Int) * o.Vector.1, y := c.y + (i : Int) * o.Vector.2 } :
        Coordinate)) := by
    intro i j hij
    cases o <;>
      simp only [Orientation.Vector, Coordinate.mk.injEq] at hij <;> omega
  exact List.Nodup.map hinj (List.nodup_range n)

/-- Claim C4: a placement whose computed cells are all in bounds and all
unoccupied succeeds, and afterwards the cells holding a reference to this
(fresh) ship instance are exactly the computed contiguous segment, which has
exactly the ship size many distinct cells; all other tiles are unchanged. -/
theorem placeShip_success_marks_segment (b : Board) (c : Coordinate) (s : Ship)
    (o : Orientation)
    (hin : ∀ cc ∈ calculateSegments c s.size o, Board.isOutOfBounds cc = false)
    (hocc : ∀ cc ∈ calculateSegments c s.size o, b.isOccupied cc = false)
    (hfresh : ∀ cc, (b.tiles cc).ship ≠ some s) :
    (b.PlaceShip c s o).2 = none ∧
    (∀ cc, ((b.PlaceShip c s o).1.tiles cc).ship = some s ↔
        cc ∈ calculateSegments c s.size o) ∧
    (∀ cc, cc ∉ calculateSegments c s.size o →
        (b.PlaceShip c s o).1.tiles cc = b.tiles cc) ∧
    (calculateSegments c s.size o).Nodup ∧
    (calculateSegments c s.size o).length = s.size := by
  have hany : (calculateSegments c s.size o).any Board.isOutOfBounds = false := by
    rw [List.any_eq_false]
    intro cc hmem
    simp [hin cc hmem]
  have hany2 : (calculateSegments c s.size o).any b.isOccupied = false := by
    rw [List.any_eq_false]
    intro cc hmem
    simp [hocc cc hmem]
  have hps : b.PlaceShip c s o = (b.placeShipAt (calculateSegments c s.size o) s, none) := by
    simp [Board.PlaceShip, Board.canPlaceShip, hany, hany2]
  refine ⟨by rw [hps], ?_, ?_, calculateSegments_nodup c s.size o, by
    simp only [calculateSegments, List.length_map, List.length_range]⟩
  · intro cc
    rw [hps]
    rw [placeShipAt_tiles]
    by_cases hm : cc ∈ calculateSegments c s.size o
    · simp [hm]
    · simp [hm, hfresh cc]
  · intro cc hm
    rw [hps]
    rw [placeShipAt_tiles]
    simp [hm]

/-- Witness for C4: a vertical size-3 ship at the origin of the empty board
succeeds and occupies exactly its three segment cells. -/
theorem placeShip_success_witness :
    (NewBoard.PlaceShip { x := 0, y := 0 } { id := 0, size := 3 }
        Orientation.Vertical).2 = none ∧
    ((NewBoard.PlaceShip { x := 0, y := 0 } { id := 0, size := 3 }
          Orientation.Vertical).1.tiles { x := 0, y := 1 }).ship =
      some { id := 0, size := 3 } := by
  have h :=
    placeShip_success_marks_segment NewBoard { x := 0, y := 0 }
      { id := 0, size := 3 } Orientation.Vertical
      (by decide) (by decide) (fun cc => by simp [NewBoard])
  exact ⟨h.1, (h.2.1 { x := 0, y := 1 }).mpr (by decide)⟩

/-- Helper: grid coordinates are in the Cells enumeration. -/
lemma mem_allCoords (x y : Nat) (hx : x < 10) (hy : y < 10) :
    ({ x := (x : Int), y := (y : Int) } : Coordinate) ∈ allCoords := by
  simp only [allCoords, GridSize, List.mem_flatMap, List.mem_map, List.mem_range]
  exact ⟨y, hy, x, hx, rfl⟩

/-- Helper: the fogged rendering of a cell depends only on its hit flag and
its recorded history, never on the ship reference. -/
lemma renderCell_fog_eq (b1 b2 : Board) (cc : Coordinate)
    (hhit : (b1.tiles cc).isHit = (b2.tiles cc).isHit)
    (hhist : b1.history cc = b2.history cc) :
    renderCell b1 true cc = renderCell b2 true cc := by
  simp only [renderCell]
  rw [hhit, hhist]
  simp

/-- Helper: two boards agreeing on hit flags and history over the grid have
identical fogged snapshots. -/
lemma getSnapshot_fog_eq (b1 b2 : Board)
    (hhit : ∀ cc ∈ allCoords, (b1.tiles cc).isHit = (b2.tiles cc).isHit)
    (hhist : ∀ cc ∈ allCoords, b1.history cc = b2.history cc) :
    b1.GetSnapshot true = b2.GetSnapshot true := by
  unfold Board.GetSnapshot
  refine congrArg (fun gr => BoardView.mk gr GridSize) ?_
  refine List.map_congr_left ?_
  intro y hy
  refine List.map_congr_left ?_
  intro x hx
  have hy10 : y < 10 := by simpa [GridSize] using List.mem_range.mp hy
  have hx10 : x < 10 := by simpa [GridSize] using List.mem_range.mp hx
  have hmem := mem_allCoords x y hx10 hy10
  exact renderCell_fog_eq b1 b2 _ (hhit _ hmem) (hhist _ hmem)

/-- Claim C7: the observer's own board renders unshot ship cells as SHIP
(distinguishable from unshot water, EMPTY), while the fogged enemy
rendering shows every unshot cell as UNKNOWN; consequently, for either slot
arrangement, two games whose enemy boards agree on hit flags and shot
history — in particular, differing only in unshot ship placement — yield
the same full view for the observer. -/
theorem fog_of_war_view :
    (∀ (b : Board) (cc : Coordinate), (b.tiles cc).isHit = false →
        (renderCell b false cc =
          (if (b.tiles cc).ship.isSome then CellState.CellShip
            else CellState.CellEmpty)) ∧
        renderCell b true cc = CellState.CellUnknown) ∧
    (∀ (me e1 e2 : Player) (t w : String) (st : GameState) (ctr : Nat),
        e1.id = e2.id → e1.fleet = e2.fleet →
        (∀ cc ∈ allCoords, (e1.board.tiles cc).isHit = (e2.board.tiles cc).isHit) →
        (∀ cc ∈ allCoords, e1.board.history cc = e2.board.history cc) →
        Game.GetView
            { player1 := some me, player2 := some e1, turn := t, state := st
            , winner := w, shipCtr := ctr } me.id =
          Game.GetView
            { player1 := some me, player2 := some e2, turn := t, state := st
            , winner := w, shipCtr := ctr } me.id) ∧
    (∀ (me e1 e2 : Player) (t w : String) (st : GameState) (ctr : Nat),
        me.id ≠ e1.id → e1.id = e2.id → e1.fleet = e2.fleet →
        (∀ cc ∈ allCoords, (e1.board.tiles cc).isHit = (e2.board.tiles cc).isHit) →
        (∀ cc ∈ allCoords, e1.board.history cc = e2.board.history cc) →
        Game.GetView
            { player1 := some e1, player2 := some me, turn := t, state := st
            , winner := w, shipCtr := ctr } me.id =
          Game.GetView
            { player1 := some e2, player2 := some me, turn := t, state := st
            , winner := w, shipCtr := ctr } me.id) := by
  refine ⟨?_, ?_, ?_⟩
  · intro b cc hh
    cases hs : (b.tiles cc).ship <;> simp [renderCell, hh, hs]
  · intro me e1 e2 t w st ctr hid hfleet hhit hhist
    have hsnap := getSnapshot_fog_eq e1.board e2.board hhit hhist
    unfold Game.GetView Player.GetView
    dsimp only
    rw [if_pos rfl, if_pos rfl]
    rw [hid, hfleet, hsnap]
  · intro me e1 e2 t w st ctr hne hid hfleet hhit hhist
    have hne2 : me.id ≠ e2.id := hid ▸ hne
    have hsnap := getSnapshot_fog_eq e1.board e2.board hhit hhist
    unfold Game.GetView Player.GetView
    dsimp only
    rw [if_neg hne, if_neg hne2, if_pos rfl, if_pos rfl]
    rw [hid, hfleet, hsnap]

/-- Witness for C7: two enemy boards that differ only in an unshot ship at
the origin produce identical observer views. -/
theorem fog_of_war_view_witness :
    Game.GetView
        { player1 := some { id := "a", fleet := [(1, 0)], board := NewBoard }
        , player2 := some { id := "b", fleet := [(1, 0)], board := NewBoard }
        , turn := "a", state := GameState.StatePlaying, winner := "", shipCtr := 0 }
        "a" =
      Game.GetView
        { player1 := some { id := "a", fleet := [(1, 0)], board := NewBoard }
        , player2 := some { id := "b", fleet := [(1, 0)], board := oneShipBoard }
        , turn := "a", state := GameState.StatePlaying, winner := "", shipCtr := 0 }
        "a" :=
  fog_of_war_view.2.1 { id := "a", fleet := [(1, 0)], board := NewBoard }
    { id := "b", fleet := [(1, 0)], board := NewBoard }
    { id := "b", fleet := [(1, 0)], board := oneShipBoard }
    "a" "" GameState.StatePlaying 0 rfl rfl (by decide) (by decide)

/-- Claim C1: in the Playing phase, for an attack by the turn holder: an
Invalid shot result is returned as an error with phase and turn unchanged; a
Miss or Hit passes the turn to the other player exactly once with the phase
still Playing; a Sunk with a defender ship still afloat passes the turn
likewise; a Sunk that downs the last defender ship ends the game: phase
GameOver, winner the attacker, turn unchanged. -/
theorem attack_turn_and_phase (g : Game) (p1 p2 : Player) (aid : String)
    (c : Coordinate)
    (h1 : g.player1 = some p1) (h2 : g.player2 = some p2)
    (hst : g.state = GameState.StatePlaying) (hturn : g.turn = aid)
    (haid : aid = p1.id ∨ aid = p2.id) :
    (((if aid = p1.id then p2 else p1).board.ReceiveShot c).2 = ShotResult.Invalid →
      attackOut (g.Attack aid c) =
        some (GameState.StatePlaying, g.turn, g.winner, ShotResult.Invalid,
          some GErr.invalidShot)) ∧
    (((if aid = p1.id then p2 else p1).board.ReceiveShot c).2 = ShotResult.Miss →
      attackOut (g.Attack aid c) =
        some (GameState.StatePlaying, (if aid = p1.id then p2.id else p1.id),
          g.winner, ShotResult.Miss, none)) ∧
    (((if aid = p1.id then p2 else p1).board.ReceiveShot c).2 = ShotResult.Hit →
      attackOut (g.Attack aid c) =
        some (GameState.StatePlaying, (if aid = p1.id then p2.id else p1.id),
          g.winner, ShotResult.Hit, none)) ∧
    (((if aid = p1.id then p2 else p1).board.ReceiveShot c).2 = ShotResult.Sunk →
      ((if aid = p1.id then p2 else p1).board.ReceiveShot c).1.AllShipsSunk = false →
      attackOut (g.Attack aid c) =
        some (GameState.StatePlaying, (if aid = p1.id then p2.id else p1.id),
          g.winner, ShotResult.Sunk, none)) ∧
    (((if aid = p1.id then p2 else p1).board.ReceiveShot c).2 = ShotResult.Sunk →
      ((if aid = p1.id then p2 else p1).board.ReceiveShot c).1.AllShipsSunk = true →
      attackOut (g.Attack aid c) =
        some (GameState.StateGameOver, g.turn, aid, ShotResult.Sunk, none)) := by
  by_cases hcase : aid = p1.id
  · have hD :
        g.Attack aid c =
          (match (p2.board.ReceiveShot c).2 with
            | ShotResult.Invalid =>
                GoRes.ok
                  ({ g with player2 := some { p2 with board := (p2.board.ReceiveShot c).1 } },
                    ShotResult.Invalid, some GErr.invalidShot)
            | ShotResult.Sunk =>
                if (p2.board.ReceiveShot c).1.AllShipsSunk then
                  GoRes.ok
                    ({ g with
                        player2 := some { p2 with board := (p2.board.ReceiveShot c).1 }
                      , state := GameState.StateGameOver, winner := aid },
                      ShotResult.Sunk, none)
                else
                  GoRes.ok
                    ({ g with
                        player2 := some { p2 with board := (p2.board.ReceiveShot c).1 }
                      , turn := p2.id },
                      ShotResult.Sunk, none)
            | ShotResult.Hit =>
                GoRes.ok
                  ({ g with
                      player2 := some { p2 with board := (p2.board.ReceiveShot c).1 }
                    , turn := p2.id },
                    ShotResult.Hit, none)
            | ShotResult.Miss =>
                GoRes.ok
                  ({ g with
                      player2 := some { p2 with board := (p2.board.ReceiveShot c).1 }
                    , turn := p2.id },
                    ShotResult.Miss, none)) := by
      unfold Game.Attack getPlayerSlot getOpponentSlot Game.passTurn
      simp [setSlot, h1, h2, hst, hcase, hturn]
    refine ⟨?_, ?_, ?_, ?_, ?_⟩ <;> intro hres
    · rw [hD]
      simp only [hcase, if_true] at hres
      split <;> simp_all [attackOut, hst, hturn, hcase]
    · rw [hD]
      simp only [hcase, if_true] at hres
      split <;> simp_all [attackOut, hst, hturn, hcase]
    · rw [hD]
      simp only [hcase, if_true] at hres
      split <;> simp_all [attackOut, hst, hturn, hcase]
    · intro hall
      rw [hD]
      simp only [hcase, if_true] at hres hall
      split <;> simp_all [attackOut, hst, hturn, hcase]
    · intro hall
      rw [hD]
      simp only [hcase, if_true] at hres hall
      split <;> simp_all [attackOut, hst, hturn, hcase]
  · have haid2 : aid = p2.id := haid.resolve_left hcase
    have hne : p2.id ≠ p1.id := fun h => hcase (by rw [haid2, h])
    have hD :
        g.Attack aid c =
          (match (p1.board.ReceiveShot c).2 with
            | ShotResult.Invalid =>
                GoRes.ok
                  ({ g with player1 := some { p1 with board := (p1.board.ReceiveShot c).1 } },
                    ShotResult.Invalid, some GErr.invalidShot)
            | ShotResult.Sunk =>
                if (p1.board.ReceiveShot c).1.AllShipsSunk then
                  GoRes.ok
                    ({ g with
                        player1 := some { p1 with board := (p1.board.ReceiveShot c).1 }
                      , state := GameState.StateGameOver, winner := aid },
                      ShotResult.Sunk, none)
                else
                  GoRes.ok
                    ({ g with
                        player1 := some { p1 with board := (p1.board.ReceiveShot c).1 }
                      , turn := p1.id },
                      ShotResult.Sunk, none)
            | ShotResult.Hit =>
                GoRes.ok
                  ({ g with
                      player1 := some { p1 with board := (p1.board.ReceiveShot c).1 }
                    , turn := p1.id },
                    ShotResult.Hit, none)
            | ShotResult.Miss =>
                GoRes.ok
                  ({ g with
                      player1 := some { p1 with board := (p1.board.ReceiveShot c).1 }
                    , turn := p1.id },
                    ShotResult.Miss, none)) := by
      unfold Game.Attack getPlayerSlot getOpponentSlot Game.passTurn
      simp [setSlot, h1, h2, hst, hcase, haid2, hturn, hne]
    refine ⟨?_, ?_, ?_, ?_, ?_⟩ <;> intro hres
    · rw [hD]
      simp only [hcase, if_false] at hres
      split <;> simp_all [attackOut, hst, hturn, hcase]
    · rw [hD]
      simp only [hcase, if_false] at hres
      split <;> simp_all [attackOut, hst, hturn, hcase]
    · rw [hD]
      simp only [hcase, if_false] at hres
      split <;> simp_all [attackOut, hst, hturn, hcase]
    · intro hall
      rw [hD]
      simp only [hcase, if_false] at hres hall
      split <;> simp_all [attackOut, hst, hturn, hcase]
    · intro hall
      rw [hD]
      simp only [hcase, if_false] at hres hall
      split <;> simp_all [attackOut, hst, hturn, hcase]

/-- Witness for C1 at the concrete playing game: sinking the last defender
ship ends the match with the attacker as winner, turn unchanged. -/
theorem attack_turn_and_phase_witness :
    attackOut (exGame.Attack "a" { x := 0, y := 0 }) =
      some (GameState.StateGameOver, "a", "a", ShotResult.Sunk, none) := by
  have h :=
    attack_turn_and_phase exGame
      { id := "a", fleet := [(1, 0)], board := NewBoard }
      { id := "b", fleet := [(1, 0)], board := oneShipBoard }
      "a" { x := 0, y := 0 } rfl rfl rfl rfl (Or.inl rfl)
  exact h.2.2.2.2 (by decide) (by decide)

/-- Helper: every phase rank is at most 3. -/
lemma phaseRank_le_three (s : GameState) : phaseRank s ≤ 3 := by
  cases s <;> simp [phaseRank]

/-- Helper: in a state satisfying the invariant, a non-Waiting phase forces
both slots to be filled. -/
lemma players_of_not_waiting (g : Game) (hinv : GameInv g)
    (h : g.state ≠ GameState.StateWaiting) :
    ∃ q1 q2, g.player1 = some q1 ∧ g.player2 = some q2 := by
  cases hq2 : g.player2 with
  | none => exact absurd (hinv.1 hq2) h
  | some q2 =>
      cases hq1 : g.player1 with
      | none =>
          have := hinv.2 hq1
          rw [this] at hq2
          cases hq2
      | some q1 => exact ⟨q1, q2, rfl, rfl⟩

/-- Helper: each single operation runs without a crash from an invariant
state, preserves the invariant and never lowers the phase rank. -/
lemma step_preserves (g : Game) (op : Op) (hinv : GameInv g) :
    ∃ g2, g.step op = GoRes.ok g2 ∧ GameInv g2 ∧
      phaseRank g.state ≤ phaseRank g2.state := by
  cases op with
  | join pid f =>
      simp only [Game.step]
      cases hp1 : g.player1 with
      | none =>
          have h2n := hinv.2 hp1
          have hw := hinv.1 h2n
          refine ⟨_, rfl, ?_, ?_⟩
          · constructor
            · intro _
              simp [Game.Join, hp1, hw]
            · intro h
              simp [Game.Join, hp1] at h
          · simp [Game.Join, hp1]
      | some q1 =>
          cases hp2 : g.player2 with
          | none =>
              have hw := hinv.1 hp2
              refine ⟨_, rfl, ?_, ?_⟩
              · constructor
                · intro h
                  simp [Game.Join, hp1, hp2] at h
                · intro h
                  simp [Game.Join, hp1, hp2] at h
              · simp [Game.Join, hp1, hp2, hw, phaseRank]
          | some q2 =>
              refine ⟨_, rfl, ?_, ?_⟩
              · simpa [Game.Join, hp1, hp2] using hinv
              · simp [Game.Join, hp1, hp2]
  | start =>
      simp only [Game.step]
      by_cases hst : g.state = GameState.StateSetup
      · obtain ⟨q1, q2, hp1, hp2⟩ :=
          players_of_not_waiting g hinv (by simp [hst])
        unfold Game.StartGame
        rw [hp1, hp2]
        simp only [hst, ne_eq, not_true_eq_false, if_false]
        by_cases hb1 : playerShipsPlaced q1
        · by_cases hb2 : playerShipsPlaced q2
          · simp only [hb1, hb2, Bool.not_true, Bool.false_eq_true, if_false]
            refine ⟨_, rfl, ?_, ?_⟩
            · constructor <;> intro h <;> simp at h
            · simp [hst, phaseRank]
          · simp only [hb1, Bool.not_true, Bool.false_eq_true, if_false,
              eq_self_iff_true]
            rw [if_pos (by simp [Bool.not_eq_true] at hb2 ⊢; exact hb2)]
            exact ⟨g, rfl, hinv, by simp [hst, phaseRank]⟩
        · rw [if_pos (by simp [Bool.not_eq_true] at hb1 ⊢; exact hb1)]
          exact ⟨g, rfl, hinv, by simp [hst, phaseRank]⟩
      · unfold Game.StartGame
        rw [if_pos hst]
        exact ⟨g, rfl, hinv, by simp [hst, phaseRank]⟩
  | place pid c sz o =>
      simp only [Game.step]
      by_cases hst : g.state = GameState.StateSetup
      · obtain ⟨q1, q2, hp1, hp2⟩ :=
          players_of_not_waiting g hinv (by simp [hst])
        unfold Game.PlaceShip getPlayerSlot
        rw [hp1, hp2]
        simp only [hst, ne_eq, not_true_eq_false, if_false]
        by_cases hd1 : pid = q1.id
        · simp only [hd1, if_true, eq_self_iff_true]
          cases hfg : fleetGet q1.fleet (sz : Int) with
          | none =>
              simp only [hfg]
              exact ⟨g, rfl, hinv, by simp [hst, phaseRank]⟩
          | some n =>
              simp only [hfg]
              by_cases hn : n ≤ 0
              · rw [if_pos hn]
                exact ⟨g, rfl, hinv, by simp [hst, phaseRank]⟩
              · rw [if_neg hn]
                rcases hps :
                    Board.PlaceShip q1.board c { id := g.shipCtr, size := sz } o
                  with ⟨b2, e⟩
                cases e with
                | some err =>
                    simp only [hps]
                    exact ⟨g, rfl, hinv, by simp [hst, phaseRank]⟩
                | none =>
                    simp only [hps, setSlot]
                    refine ⟨_, rfl, ?_, ?_⟩
                    · constructor <;> intro h <;> simp [hp2] at h
                    · simp [phaseRank, hst]
        · simp only [hd1, if_false]
          by_cases hd2 : pid = q2.id
          · simp only [hd2, if_true, eq_self_iff_true]
            cases hfg : fleetGet q2.fleet (sz : Int) with
            | none =>
                simp only [hfg]
                exact ⟨g, rfl, hinv, by simp [hst, phaseRank]⟩
            | some n =>
                simp only [hfg]
                by_cases hn : n ≤ 0
                · rw [if_pos hn]
                  exact ⟨g, rfl, hinv, by simp [hst, phaseRank]⟩
                · rw [if_neg hn]
                  rcases hps :
                      Board.PlaceShip q2.board c { id := g.shipCtr, size := sz } o
                    with ⟨b2, e⟩
                  cases e with
                  | some err =>
                      simp only [hps]
                      exact ⟨g, rfl, hinv, by simp [hst, phaseRank]⟩
                  | none =>
                      simp only [hps, setSlot]
                      refine ⟨_, rfl, ?_, ?_⟩
                      · constructor <;> intro h <;> simp [hp1] at h
                      · simp [phaseRank, hst]
          · simp only [hd2, if_false]
            exact ⟨g, rfl, hinv, by simp [hst, phaseRank]⟩
      · unfold Game.PlaceShip
        rw [if_pos hst]
        exact ⟨g, rfl, hinv, by simp [hst, phaseRank]⟩
  | attack pid c =>
      simp only [Game.step]
      by_cases hst : g.state = GameState.StatePlaying
      · obtain ⟨q1, q2, hp1, hp2⟩ :=
          players_of_not_waiting g hinv (by simp [hst])
        unfold Game.Attack getPlayerSlot getOpponentSlot Game.passTurn
        rw [hp1, hp2]
        simp only [hst, ne_eq, not_true_eq_false, if_false, setSlot, hp1, hp2,
          Option.map_some']
        by_cases ht : g.turn = pid
        · by_cases ha1 : pid = q1.id
          · simp only [ha1, if_true, eq_self_iff_true, ht, not_true_eq_false,
              if_false]
            rcases hrs : Board.ReceiveShot q2.board c with ⟨b2, res⟩
            cases res with
            | Invalid =>
                refine ⟨_, rfl, ?_, ?_⟩
                · constructor <;> intro h <;> simp [hp1] at h
                · simp [phaseRank, hst]
            | Sunk =>
                by_cases hall : b2.AllShipsSunk
                · rw [if_pos hall]
                  refine ⟨_, rfl, ?_, ?_⟩
                  · constructor <;> intro h <;> simp [hp1] at h
                  · simp [phaseRank, phaseRank_le_three, hst]
                · rw [if_neg hall]
                  refine ⟨_, rfl, ?_, ?_⟩
                  · constructor <;> intro h <;> simp [hp1] at h
                  · simp [phaseRank, hst]
            | Hit =>
                refine ⟨_, rfl, ?_, ?_⟩
                · constructor <;> intro h <;> simp [hp1] at h
                · simp [phaseRank, hst]
            | Miss =>
                refine ⟨_, rfl, ?_, ?_⟩
                · constructor <;> intro h <;> simp [hp1] at h
                · simp [phaseRank, hst]
          · simp only [ha1, if_false]
            by_cases ha2 : pid = q2.id
            · simp only [ha2, if_true, eq_self_iff_true, ht, not_true_eq_false,
                if_false]
              rcases hrs : Board.ReceiveShot q1.board c with ⟨b2, res⟩
              have hne21 : ¬(q2.id = q1.id) := fun h => ha1 (ha2.trans h)
              cases res with
              | Invalid =>
                  refine ⟨_, rfl, ?_, ?_⟩
                  · constructor <;> intro h <;> simp [hp2] at h
                  · simp [phaseRank, hst]
              | Sunk =>
                  by_cases hall : b2.AllShipsSunk
                  · rw [if_pos hall]
                    refine ⟨_, rfl, ?_, ?_⟩
                    · constructor <;> intro h <;> simp [hp2] at h
                    · simp [phaseRank, phaseRank_le_three, hst]
                  · rw [if_neg hall]
                    simp only [hne21, if_false]
                    refine ⟨_, rfl, ?_, ?_⟩
                    · constructor <;> intro h <;> simp [hp2] at h
                    · simp [phaseRank, hst]
              | Hit =>
                  simp only [hne21, if_false]
                  refine ⟨_, rfl, ?_, ?_⟩
                  · constructor <;> intro h <;> simp [hp2] at h
                  · simp [phaseRank, hst]
              | Miss =>
                  simp only [hne21, if_false]
                  refine ⟨_, rfl, ?_, ?_⟩
                  · constructor <;> intro h <;> simp [hp2] at h
                  · simp [phaseRank, hst]
            · simp only [ha2, if_false]
              exact ⟨g, rfl, hinv, by simp [hst, phaseRank]⟩
        · by_cases ha1 : pid = q1.id
          · simp only [ha1, if_true, eq_self_iff_true]
            rw [if_pos (by simpa [ha1] using ht)]
            exact ⟨g, rfl, hinv, by simp [hst, phaseRank]⟩
          · simp only [ha1, if_false]
            by_cases ha2 : pid = q2.id
            · simp only [ha2, if_true, eq_self_iff_true]
              rw [if_pos (by simpa [ha2] using ht)]
              exact ⟨g, rfl, hinv, by simp [hst, phaseRank]⟩
            · simp only [ha2, if_false]
              exact ⟨g, rfl, hinv, by simp [hst, phaseRank]⟩
      · unfold Game.Attack
        rw [if_pos hst]
        exact ⟨g, rfl, hinv, by simp [hst, phaseRank]⟩

/-- Claim C6: the phase only moves forward. Both initial games satisfy the
structural invariant; every operation (Join, PlaceShip, StartGame, Attack)
from an invariant state completes, preserves the invariant, and never
lowers the phase rank; hence along every operation sequence the phase only
advances in the order Waiting, Setup, Playing, GameOver. -/
theorem phase_monotonic :
    GameInv NewGame ∧
    (∀ (p1ID p2ID : String) (fleet : Option (List (Int × Int))),
        GameInv (NewFullGame p1ID p2ID fleet)) ∧
    (∀ (g : Game) (op : Op), GameInv g →
        ∃ g2, g.step op = GoRes.ok g2 ∧ GameInv g2 ∧
          phaseRank g.state ≤ phaseRank g2.state) ∧
    (∀ (g : Game) (ops : List Op), GameInv g →
        ∃ g2, g.run ops = GoRes.ok g2 ∧ GameInv g2 ∧
          phaseRank g.state ≤ phaseRank g2.state) := by
  refine ⟨⟨fun _ => rfl, fun _ => rfl⟩, ?_, step_preserves, ?_⟩
  · intro p1ID p2ID fleet
    constructor <;> intro h <;> simp [NewFullGame] at h
  · intro g ops
    induction ops generalizing g with
    | nil => intro h; exact ⟨g, rfl, h, le_refl _⟩
    | cons op rest ih =>
        intro h
        obtain ⟨g2, hstep, hinv2, hle⟩ := step_preserves g op h
        obtain ⟨g3, hrun, hinv3, hle2⟩ := ih g2 hinv2
        refine ⟨g3, ?_, hinv3, le_trans hle hle2⟩
        simp only [Game.run, hstep, hrun]

/-- Witness for C6: a concrete two-join sequence from the empty game runs
without a crash. -/
theorem phase_monotonic_witness :
    NewGame.run [Op.join "h" none, Op.join "g" none] ≠ GoRes.crash := by
  obtain ⟨g2, hrun, -, -⟩ :=
    phase_monotonic.2.2.2 NewGame [Op.join "h" none, Op.join "g" none]
      phase_monotonic.1
  rw [hrun]
  simp
